import Mathlib

/-!
Shallow embedding of the jobly dynamic query-construction layer:
`sqlForPartialUpdate` (src/helpers/sql.js), `Job.buildFindAllSQLWithQueryString`
(src/models/job.js) and `Company.buildFindAllSQLWithQueryString`
(src/models/company.js).  JavaScript objects are modelled as association lists
in insertion order (the iteration order of `Object.keys` / `for ... in`).
Values are kept polymorphic because the builders never inspect them; `JSVal`
instantiates them for concrete scenarios.
-/

/-- JavaScript values as they occur in update and filter mappings. -/
inductive JSVal where
  | str (s : String)
  | num (n : Int)
  | bool (b : Bool)
deriving DecidableEq, Repr

/-- Error classes raised on the query-construction path: `BadRequestError`
from src/expressError.js, and the spec's `UnrecognizedFilterKeyError`, which
carries the offending filter key. -/
inductive SqlError where
  | badRequest (msg : String)
  | unrecognizedFilterKey (key : String)
deriving DecidableEq, Repr

/-- Result of `sqlForPartialUpdate`: the SET fragment and the bind values. -/
structure SqlUpdateResult (V : Type) where
  setCols : String
  values : List V
deriving DecidableEq, Repr

variable {V : Type}

/-- The column-name resolution `jsToSql[colName] || colName` of
src/helpers/sql.js: JavaScript `||` falls back on the key when the lookup is
`undefined` (key absent) or falsy (the empty string). -/
def lookupOrKey (jsToSql : List (String × String)) (colName : String) : String :=
  match jsToSql.lookup colName with
  | some s => if s = "" then colName else s
  | none => colName

/-- The per-key assignment clauses (`cols`) of src/helpers/sql.js:
`keys.map((colName, idx) => "<resolved col>"=$<idx+1>)`. -/
def sqlForPartialUpdateCols (keys : List String) (jsToSql : List (String × String)) :
    List String :=
  keys.enum.map (fun p => "\"" ++ lookupOrKey jsToSql p.2 ++ "\"=$" ++ Nat.repr (p.1 + 1))

/-- src/helpers/sql.js `sqlForPartialUpdate`. -/
def sqlForPartialUpdate (dataToUpdate : List (String × V))
    (jsToSql : List (String × String)) : Except SqlError (SqlUpdateResult V) :=
  let keys := dataToUpdate.map Prod.fst
  if keys.length = 0 then .error (.badRequest "No data")
  else .ok ⟨String.intercalate ", " (sqlForPartialUpdateCols keys jsToSql),
            dataToUpdate.map Prod.snd⟩

namespace Job

/-- The fixed base projection and relation of the jobs filter builder
(template literal at the top of `Job.buildFindAllSQLWithQueryString`). -/
def baseSql : String :=
  "SELECT id,\n      title, \n      salary, \n      equity,\n      company_handle AS \"companyHandle\"\n      FROM jobs"

/-- The `for (let key in queryString)` loop of
`Job.buildFindAllSQLWithQueryString`, threading `startedSql`, `paramCount`,
`sql` and `values`; the `hasEquity` arm mirrors the source's `continue`
(no value pushed, `paramCount` not incremented). -/
def findAllLoop : List (String × V) → Bool → Nat → String → List V → String × List V
  | [], _, _, sql, values => (sql ++ " ORDER BY title", values)
  | (key, v) :: rest, startedSql, paramCount, sql, values =>
    let sql := if startedSql then sql ++ " AND " else sql ++ " WHERE "
    if key = "title" then
      findAllLoop rest true (paramCount + 1)
        (sql ++ " name ILIKE '%' || $" ++ Nat.repr paramCount ++ " || '%'") (values ++ [v])
    else if key = "minSalary" then
      findAllLoop rest true (paramCount + 1)
        (sql ++ " salary >= $" ++ Nat.repr paramCount) (values ++ [v])
    else if key = "hasEquity" then
      findAllLoop rest true paramCount (sql ++ " equity > 0") values
    else
      findAllLoop rest true (paramCount + 1) sql (values ++ [v])

/-- src/models/job.js `Job.buildFindAllSQLWithQueryString`. -/
def buildFindAllSQLWithQueryString (queryString : List (String × V)) : String × List V :=
  findAllLoop queryString false 1 baseSql []

end Job

namespace Company

/-- The fixed base projection and relation of the companies filter builder. -/
def baseSql : String :=
  "SELECT handle,\n      name, \n      description, \n      num_employees AS \"numEmployees\",\n      logo_url AS \"logoUrl\"\n      FROM companies"

/-- The `for (let key in queryString)` loop of
`Company.buildFindAllSQLWithQueryString`; every iteration (any key) pushes the
value and increments `paramCount` — there is no `continue` arm here. -/
def findAllLoop : List (String × V) → Bool → Nat → String → List V → String × List V
  | [], _, _, sql, values => (sql ++ " ORDER BY name", values)
  | (key, v) :: rest, startedSql, paramCount, sql, values =>
    let sql := if startedSql then sql ++ " AND " else sql ++ " WHERE "
    let sql :=
      if key = "name" then
        sql ++ " name ILIKE '%' || $" ++ Nat.repr paramCount ++ " || '%'"
      else if key = "minEmployees" then
        sql ++ " num_employees >= $" ++ Nat.repr paramCount
      else if key = "maxEmployees" then
        sql ++ " num_employees <= $" ++ Nat.repr paramCount
      else
        sql
    findAllLoop rest true (paramCount + 1) sql (values ++ [v])

/-- src/models/company.js `Company.buildFindAllSQLWithQueryString`. -/
def buildFindAllSQLWithQueryString (queryString : List (String × V)) : String × List V :=
  findAllLoop queryString false 1 baseSql []

end Company

/-- Modelled from the spec: the route-layer filter-key membership check
(the `GET /jobs` and `GET /companies` route handlers are not part of the
source snapshot; only their tests are).  Every key of the filter mapping must
belong to the resource's recognized vocabulary; the first unrecognized key is
rejected with an `UnrecognizedFilterKeyError` naming it. -/
def validateFilterKeys (vocab : List String) (queryString : List (String × V)) :
    Except SqlError Unit :=
  match queryString.find? (fun p => !(vocab.contains p.1)) with
  | some p => .error (.unrecognizedFilterKey p.1)
  | none => .ok ()

/-- The jobs filter vocabulary. -/
def jobFilterVocab : List String := ["title", "minSalary", "hasEquity"]

/-- The companies filter vocabulary. -/
def companyFilterVocab : List String := ["name", "minEmployees", "maxEmployees"]

/-- Modelled from the spec: the jobs filter path — vocabulary check at the
route layer, then the builder. -/
def Job.findAllChecked (queryString : List (String × V)) :
    Except SqlError (String × List V) :=
  match validateFilterKeys jobFilterVocab queryString with
  | .error e => .error e
  | .ok _ => .ok (Job.buildFindAllSQLWithQueryString queryString)

/-- Modelled from the spec: the companies filter path — vocabulary check at
the route layer, then the builder. -/
def Company.findAllChecked (queryString : List (String × V)) :
    Except SqlError (String × List V) :=
  match validateFilterKeys companyFilterVocab queryString with
  | .error e => .error e
  | .ok _ => .ok (Company.buildFindAllSQLWithQueryString queryString)

/-- One pass over a statement's characters collecting each digit run that
follows a `$`; the run currently being read is carried in reverse. -/
def phRuns : List Char → Option (List Char) → List (List Char)
  | [], none => []
  | [], some r => [r.reverse]
  | c :: rest, none => if c = '$' then phRuns rest (some []) else phRuns rest none
  | c :: rest, some r =>
    if c.isDigit then phRuns rest (some (c :: r))
    else r.reverse :: (if c = '$' then phRuns rest (some []) else phRuns rest none)

/-- The placeholder numerals of a statement, in order of occurrence: for each
`$`, the maximal digit run that follows it. -/
def placeholdersOf (s : String) : List String :=
  (phRuns s.data none).map List.asString

/-- Whether `pat` occurs as a contiguous substring of `s`. -/
def hasSubstr (s pat : List Char) : Bool :=
  match s with
  | [] => pat.isEmpty
  | c :: rest => pat.isPrefixOf (c :: rest) || hasSubstr rest pat

/-- The values pushed by the jobs loop for the remaining keys: every key except
`hasEquity` pushes its value. -/
def jobRestVals : List (String × V) → List V
  | [] => []
  | (key, v) :: rest =>
    if key = "hasEquity" then jobRestVals rest else v :: jobRestVals rest

/-- The statement text appended by the jobs loop for the remaining keys,
given the current `startedSql` flag and `paramCount` (the `WHERE`/`AND`
connective is merged into each clause literal). -/
def jobRestSql : List (String × V) → Bool → Nat → String
  | [], _, _ => " ORDER BY title"
  | (key, _) :: rest, startedSql, paramCount =>
    if key = "title" then
      (if startedSql then " AND  name ILIKE '%' || $" else " WHERE  name ILIKE '%' || $") ++
        Nat.repr paramCount ++ " || '%'" ++ jobRestSql rest true (paramCount + 1)
    else if key = "minSalary" then
      (if startedSql then " AND  salary >= $" else " WHERE  salary >= $") ++
        Nat.repr paramCount ++ jobRestSql rest true (paramCount + 1)
    else if key = "hasEquity" then
      (if startedSql then " AND  equity > 0" else " WHERE  equity > 0") ++
        jobRestSql rest true paramCount
    else
      (if startedSql then " AND " else " WHERE ") ++ jobRestSql rest true (paramCount + 1)

/-- The statement text appended by the companies loop for the remaining keys.
Every key (recognized or not) advances `paramCount`; an unrecognized key
appends only the `WHERE`/`AND` connective. -/
def companyRestSql : List (String × V) → Bool → Nat → String
  | [], _, _ => " ORDER BY name"
  | (key, _) :: rest, startedSql, paramCount =>
    if key = "name" then
      (if startedSql then " AND  name ILIKE '%' || $" else " WHERE  name ILIKE '%' || $") ++
        Nat.repr paramCount ++ " || '%'" ++ companyRestSql rest true (paramCount + 1)
    else if key = "minEmployees" then
      (if startedSql then " AND  num_employees >= $" else " WHERE  num_employees >= $") ++
        Nat.repr paramCount ++ companyRestSql rest true (paramCount + 1)
    else if key = "maxEmployees" then
      (if startedSql then " AND  num_employees <= $" else " WHERE  num_employees <= $") ++
        Nat.repr paramCount ++ companyRestSql rest true (paramCount + 1)
    else
      (if startedSql then " AND " else " WHERE ") ++ companyRestSql rest true (paramCount + 1)

/-- Number of parameterized predicates among the filter keys: every key except
the literal-predicate key `hasEquity` consumes a placeholder. -/
def jobPlaceholderCount (l : List (String × V)) : Nat :=
  l.countP (fun p => p.1 != "hasEquity")

/-! ### Lemmas about the placeholder scanner `phRuns` -/

theorem phRuns_append (a b : List Char)
    (hb : ∀ c, b.head? = some c → c.isDigit = false) :
    ∀ st, phRuns (a ++ b) st = phRuns a st ++ phRuns b none := by
  induction a with
  | nil =>
    intro st
    match st with
    | none => simp [phRuns]
    | some r =>
      match b with
      | [] => simp [phRuns]
      | c :: rest =>
        have hc : c.isDigit = false := hb c rfl
        simp [phRuns, hc]
  | cons c a ih =>
    intro st
    match st with
    | none =>
      by_cases hc : c = '$' <;> simp [phRuns, hc, ih]
    | some r =>
      by_cases hd : c.isDigit
      · simp [phRuns, hd, ih]
      · by_cases hc : c = '$' <;> simp [phRuns, hd, hc, ih]

theorem phRuns_skip (a b : List Char) (ha : ∀ c ∈ a, c ≠ '$') :
    phRuns (a ++ b) none = phRuns b none := by
  induction a with
  | nil => rfl
  | cons c a ih =>
    have hc : c ≠ '$' := ha c (List.mem_cons_self c a)
    simp only [List.cons_append, phRuns, hc, if_false, if_neg hc]
    exact ih (fun x hx => ha x (List.mem_cons_of_mem c hx))

theorem phRuns_digits (d : List Char) (hd : ∀ c ∈ d, c.isDigit = true) :
    ∀ (b : List Char) (r : List Char),
      phRuns (d ++ b) (some r) = phRuns b (some (d.reverse ++ r)) := by
  induction d with
  | nil => intro b r; rfl
  | cons c d ih =>
    intro b r
    have hc : c.isDigit = true := hd c (List.mem_cons_self c d)
    simp only [List.cons_append, phRuns, hc, if_true, if_pos hc, List.append_eq]
    rw [ih (fun x hx => hd x (List.mem_cons_of_mem c hx)) b (c :: r)]
    simp [List.append_assoc]

theorem phRuns_flush (b : List Char)
    (hb : ∀ c, b.head? = some c → c.isDigit = false) (r : List Char) :
    phRuns b (some r) = r.reverse :: phRuns b none := by
  match b with
  | [] => rfl
  | c :: rest =>
    have hc : c.isDigit = false := hb c rfl
    by_cases hdol : c = '$' <;> simp [phRuns, hc, hdol]

/-! ### Decimal numerals: every character of `Nat.repr n` is a digit, and the
numeral is nonempty -/

theorem digitChar_isDigit (m : Nat) (h : m < 10) : (Nat.digitChar m).isDigit = true := by
  interval_cases m <;> decide

theorem toDigitsCore_digits (fuel : Nat) :
    ∀ (n : Nat) (ds : List Char), (∀ c ∈ ds, c.isDigit = true) →
      ∀ c ∈ Nat.toDigitsCore 10 fuel n ds, c.isDigit = true := by
  induction fuel with
  | zero => intro n ds hds c hc; exact hds c hc
  | succ fuel ih =>
    intro n ds hds c hc
    rw [Nat.toDigitsCore] at hc
    by_cases hz : n / 10 = 0
    · rw [if_pos hz] at hc
      rcases List.mem_cons.mp hc with h | h
      · subst h; exact digitChar_isDigit _ (Nat.mod_lt n (by omega))
      · exact hds c h
    · rw [if_neg hz] at hc
      refine ih (n / 10) (Nat.digitChar (n % 10) :: ds) ?_ c hc
      intro x hx
      rcases List.mem_cons.mp hx with h | h
      · subst h; exact digitChar_isDigit _ (Nat.mod_lt n (by omega))
      · exact hds x h

theorem repr_data_digits (n : Nat) : ∀ c ∈ (Nat.repr n).data, c.isDigit = true := by
  intro c hc
  have : (Nat.repr n).data = Nat.toDigitsCore 10 (n + 1) n [] := rfl
  rw [this] at hc
  exact toDigitsCore_digits (n + 1) n [] (by simp) c hc

theorem toDigitsCore_extends (fuel : Nat) :
    ∀ (n : Nat) (ds : List Char), ∃ l, Nat.toDigitsCore 10 fuel n ds = l ++ ds := by
  induction fuel with
  | zero => intro n ds; exact ⟨[], rfl⟩
  | succ fuel ih =>
    intro n ds
    rw [Nat.toDigitsCore]
    by_cases hz : n / 10 = 0
    · rw [if_pos hz]; exact ⟨[Nat.digitChar (n % 10)], rfl⟩
    · rw [if_neg hz]
      obtain ⟨l, hl⟩ := ih (n / 10) (Nat.digitChar (n % 10) :: ds)
      exact ⟨l ++ [Nat.digitChar (n % 10)], by simp [hl]⟩

theorem repr_data_ne_nil (n : Nat) : (Nat.repr n).data ≠ [] := by
  have : (Nat.repr n).data = Nat.toDigitsCore 10 (n + 1) n [] := rfl
  rw [this, Nat.toDigitsCore]
  by_cases hz : n / 10 = 0
  · rw [if_pos hz]; simp
  · rw [if_neg hz]
    obtain ⟨l, hl⟩ := toDigitsCore_extends n (n / 10) [Nat.digitChar (n % 10)]
    rw [hl]; simp

/-! ### Compositional characterization of the jobs filter loop -/


theorem Job.jobLoop_eq (l : List (String × V)) :
    ∀ (startedSql : Bool) (paramCount : Nat) (sqlAcc : String) (vals : List V),
      Job.findAllLoop l startedSql paramCount sqlAcc vals =
        (sqlAcc ++ jobRestSql l startedSql paramCount, vals ++ jobRestVals l) := by
  induction l with
  | nil => intro s k sqlAcc vals; simp [Job.findAllLoop, jobRestSql, jobRestVals]
  | cons p rest ih =>
    intro s k sqlAcc vals
    obtain ⟨key, v⟩ := p
    by_cases h1 : key = "title"
    · cases s <;> simp [Job.findAllLoop, jobRestSql, jobRestVals, h1, ih, String.append_assoc]
    · by_cases h2 : key = "minSalary"
      · cases s <;>
          simp [Job.findAllLoop, jobRestSql, jobRestVals, h1, h2, ih, String.append_assoc]
      · by_cases h3 : key = "hasEquity"
        · cases s <;>
            simp [Job.findAllLoop, jobRestSql, jobRestVals, h1, h2, h3, ih, String.append_assoc]
        · cases s <;>
            simp [Job.findAllLoop, jobRestSql, jobRestVals, h1, h2, h3, ih, String.append_assoc]

theorem Job.jobBuild_eq (q : List (String × V)) :
    Job.buildFindAllSQLWithQueryString q = (Job.baseSql ++ jobRestSql q false 1, jobRestVals q) := by
  rw [Job.buildFindAllSQLWithQueryString, Job.jobLoop_eq]
  simp

/-! ### Compositional characterization of the companies filter loop -/


theorem Company.companyLoop_eq (l : List (String × V)) :
    ∀ (startedSql : Bool) (paramCount : Nat) (sqlAcc : String) (vals : List V),
      Company.findAllLoop l startedSql paramCount sqlAcc vals =
        (sqlAcc ++ companyRestSql l startedSql paramCount, vals ++ l.map Prod.snd) := by
  induction l with
  | nil => intro s k sqlAcc vals; simp [Company.findAllLoop, companyRestSql]
  | cons p rest ih =>
    intro s k sqlAcc vals
    obtain ⟨key, v⟩ := p
    by_cases h1 : key = "name"
    · cases s <;> simp [Company.findAllLoop, companyRestSql, h1, ih, String.append_assoc]
    · by_cases h2 : key = "minEmployees"
      · cases s <;>
          simp [Company.findAllLoop, companyRestSql, h1, h2, ih, String.append_assoc]
      · by_cases h3 : key = "maxEmployees"
        · cases s <;>
            simp [Company.findAllLoop, companyRestSql, h1, h2, h3, ih, String.append_assoc]
        · cases s <;>
            simp [Company.findAllLoop, companyRestSql, h1, h2, h3, ih, String.append_assoc]

theorem Company.companyBuild_eq (q : List (String × V)) :
    Company.buildFindAllSQLWithQueryString q =
      (Company.baseSql ++ companyRestSql q false 1, q.map Prod.snd) := by
  rw [Company.buildFindAllSQLWithQueryString, Company.companyLoop_eq]
  simp

/-! ### Values and placeholders of the jobs statement -/


theorem jobRestVals_eq (l : List (String × V)) :
    jobRestVals l = (l.filter (fun p => p.1 != "hasEquity")).map Prod.snd := by
  induction l with
  | nil => rfl
  | cons p rest ih =>
    obtain ⟨key, v⟩ := p
    by_cases h : key = "hasEquity" <;> simp [jobRestVals, List.filter_cons, h, ih]

theorem jobRestVals_length (l : List (String × V)) :
    (jobRestVals l).length = jobPlaceholderCount l := by
  rw [jobRestVals_eq, jobPlaceholderCount, List.countP_eq_length_filter]
  simp

theorem jobRestSql_head (l : List (String × V)) (s : Bool) (k : Nat) :
    (jobRestSql l s k).data.head? = some ' ' := by
  match l with
  | [] => rfl
  | (key, v) :: rest =>
    by_cases h1 : key = "title"
    · cases s <;>
        simp [jobRestSql, h1, String.data_append, List.head?_append,
          show (" WHERE  name ILIKE '%' || $" : String).data.head? = some ' ' from rfl,
          show (" AND  name ILIKE '%' || $" : String).data.head? = some ' ' from rfl]
    · by_cases h2 : key = "minSalary"
      · cases s <;>
          simp [jobRestSql, h1, h2, String.data_append, List.head?_append,
            show (" WHERE  salary >= $" : String).data.head? = some ' ' from rfl,
            show (" AND  salary >= $" : String).data.head? = some ' ' from rfl]
      · by_cases h3 : key = "hasEquity"
        · cases s <;>
            simp [jobRestSql, h1, h2, h3, String.data_append, List.head?_append,
              show (" WHERE  equity > 0" : String).data.head? = some ' ' from rfl,
              show (" AND  equity > 0" : String).data.head? = some ' ' from rfl]
        · cases s <;>
            simp [jobRestSql, h1, h2, h3, String.data_append, List.head?_append,
              show (" WHERE " : String).data.head? = some ' ' from rfl,
              show (" AND " : String).data.head? = some ' ' from rfl]

theorem nondigit_of_head_space {b : List Char} (hb : b.head? = some ' ') :
    ∀ c, b.head? = some c → c.isDigit = false := by
  intro c hc
  rw [hb] at hc
  cases hc
  decide

/-- Scanning a clause `A ++ "$" ++ digits ++ B` yields the digit run and then
continues with `B`. -/
theorem phRuns_clause (A : List Char) (hA : ∀ c ∈ A, c ≠ '$')
    (d : List Char) (hd : ∀ c ∈ d, c.isDigit = true)
    (B : List Char) (hB : ∀ c, B.head? = some c → c.isDigit = false) :
    phRuns (A ++ '$' :: (d ++ B)) none = d :: phRuns B none := by
  rw [phRuns_skip A _ hA]
  have h1 : phRuns ('$' :: (d ++ B)) none = phRuns (d ++ B) (some []) := by
    simp [phRuns]
  rw [h1, phRuns_digits d hd B [], phRuns_flush B hB]
  simp

theorem jobRestSql_phRuns (l : List (String × V)) :
    ∀ (s : Bool) (k : Nat),
      (∀ p ∈ l, p.1 = "title" ∨ p.1 = "minSalary" ∨ p.1 = "hasEquity") →
      phRuns (jobRestSql l s k).data none =
        (List.range' k (jobPlaceholderCount l)).map (fun i => (Nat.repr i).data) := by
  induction l with
  | nil =>
    intro s k hv
    simp [jobRestSql, jobPlaceholderCount]
    decide
  | cons p rest ih =>
    intro s k hv
    obtain ⟨key, v⟩ := p
    have hrest := fun p hp => hv p (List.mem_cons_of_mem _ hp)
    have hJ : ∀ (k : Nat) c, (jobRestSql rest true k).data.head? = some c → c.isDigit = false :=
      fun k => nondigit_of_head_space (jobRestSql_head rest true k)
    rcases hv (key, v) (List.mem_cons_self _ _) with h1 | h2 | h3
    · replace h1 : key = "title" := h1
      subst h1
      have hcount : jobPlaceholderCount (("title", v) :: rest) = jobPlaceholderCount rest + 1 := by
        simp [jobPlaceholderCount, List.countP_cons]
      have hB : ∀ c, (" || '%'".data ++ (jobRestSql rest true (k + 1)).data).head? = some c →
          c.isDigit = false := by
        apply nondigit_of_head_space
        rw [List.head?_append]
        rfl
      have htail : phRuns (" || '%'".data ++ (jobRestSql rest true (k + 1)).data) none =
          phRuns (jobRestSql rest true (k + 1)).data none := by
        apply phRuns_skip
        decide
      cases s
      · have e : (jobRestSql (("title", v) :: rest) false k).data =
            " WHERE  name ILIKE '%' || ".data ++
              '$' :: ((Nat.repr k).data ++
                (" || '%'".data ++ (jobRestSql rest true (k + 1)).data)) := by
          simp [jobRestSql, String.data_append]
        rw [e, phRuns_clause _ (by decide) _ (repr_data_digits k) _ hB, htail,
          ih true (k + 1) hrest, hcount, List.range'_succ]
        simp
      · have e : (jobRestSql (("title", v) :: rest) true k).data =
            " AND  name ILIKE '%' || ".data ++
              '$' :: ((Nat.repr k).data ++
                (" || '%'".data ++ (jobRestSql rest true (k + 1)).data)) := by
          simp [jobRestSql, String.data_append]
        rw [e, phRuns_clause _ (by decide) _ (repr_data_digits k) _ hB, htail,
          ih true (k + 1) hrest, hcount, List.range'_succ]
        simp
    · replace h2 : key = "minSalary" := h2
      subst h2
      have hcount : jobPlaceholderCount (("minSalary", v) :: rest) = jobPlaceholderCount rest + 1 := by
        simp [jobPlaceholderCount, List.countP_cons]
      cases s
      · have e : (jobRestSql (("minSalary", v) :: rest) false k).data =
            " WHERE  salary >= ".data ++
              '$' :: ((Nat.repr k).data ++ (jobRestSql rest true (k + 1)).data) := by
          simp [jobRestSql, String.data_append]
        rw [e, phRuns_clause _ (by decide) _ (repr_data_digits k) _ (hJ (k + 1)),
          ih true (k + 1) hrest, hcount, List.range'_succ]
        simp
      · have e : (jobRestSql (("minSalary", v) :: rest) true k).data =
            " AND  salary >= ".data ++
              '$' :: ((Nat.repr k).data ++ (jobRestSql rest true (k + 1)).data) := by
          simp [jobRestSql, String.data_append]
        rw [e, phRuns_clause _ (by decide) _ (repr_data_digits k) _ (hJ (k + 1)),
          ih true (k + 1) hrest, hcount, List.range'_succ]
        simp
    · replace h3 : key = "hasEquity" := h3
      subst h3
      have hcount : jobPlaceholderCount (("hasEquity", v) :: rest) = jobPlaceholderCount rest := by
        simp [jobPlaceholderCount, List.countP_cons]
      cases s
      · have e : (jobRestSql (("hasEquity", v) :: rest) false k).data =
            " WHERE  equity > 0".data ++ (jobRestSql rest true k).data := by
          simp [jobRestSql, String.data_append]
        rw [e, phRuns_skip _ _ (by decide), ih true k hrest, hcount]
      · have e : (jobRestSql (("hasEquity", v) :: rest) true k).data =
            " AND  equity > 0".data ++ (jobRestSql rest true k).data := by
          simp [jobRestSql, String.data_append]
        rw [e, phRuns_skip _ _ (by decide), ih true k hrest, hcount]

/-! ### Placeholders of the companies statement -/

theorem companyRestSql_head (l : List (String × V)) (s : Bool) (k : Nat) :
    (companyRestSql l s k).data.head? = some ' ' := by
  match l with
  | [] => rfl
  | (key, v) :: rest =>
    by_cases h1 : key = "name"
    · cases s <;>
        simp [companyRestSql, h1, String.data_append, List.head?_append]
    · by_cases h2 : key = "minEmployees"
      · cases s <;>
          simp [companyRestSql, h1, h2, String.data_append, List.head?_append]
      · by_cases h3 : key = "maxEmployees"
        · cases s <;>
            simp [companyRestSql, h1, h2, h3, String.data_append, List.head?_append]
        · cases s <;>
            simp [companyRestSql, h1, h2, h3, String.data_append, List.head?_append]

theorem companyRestSql_phRuns (l : List (String × V)) :
    ∀ (s : Bool) (k : Nat),
      (∀ p ∈ l, p.1 = "name" ∨ p.1 = "minEmployees" ∨ p.1 = "maxEmployees") →
      phRuns (companyRestSql l s k).data none =
        (List.range' k l.length).map (fun i => (Nat.repr i).data) := by
  induction l with
  | nil =>
    intro s k hv
    simp [companyRestSql]
    decide
  | cons p rest ih =>
    intro s k hv
    obtain ⟨key, v⟩ := p
    have hrest := fun p hp => hv p (List.mem_cons_of_mem _ hp)
    have hJ : ∀ (k : Nat) c, (companyRestSql rest true k).data.head? = some c →
        c.isDigit = false :=
      fun k => nondigit_of_head_space (companyRestSql_head rest true k)
    rcases hv (key, v) (List.mem_cons_self _ _) with h1 | h2 | h3
    · replace h1 : key = "name" := h1
      subst h1
      have hB : ∀ c, (" || '%'".data ++ (companyRestSql rest true (k + 1)).data).head? = some c →
          c.isDigit = false := by
        apply nondigit_of_head_space
        rw [List.head?_append]
        rfl
      have htail : phRuns (" || '%'".data ++ (companyRestSql rest true (k + 1)).data) none =
          phRuns (companyRestSql rest true (k + 1)).data none := by
        apply phRuns_skip
        decide
      cases s
      · have e : (companyRestSql (("name", v) :: rest) false k).data =
            " WHERE  name ILIKE '%' || ".data ++
              '$' :: ((Nat.repr k).data ++
                (" || '%'".data ++ (companyRestSql rest true (k + 1)).data)) := by
          simp [companyRestSql, String.data_append]
        rw [e, phRuns_clause _ (by decide) _ (repr_data_digits k) _ hB, htail,
          ih true (k + 1) hrest, List.length_cons, List.range'_succ]
        simp
      · have e : (companyRestSql (("name", v) :: rest) true k).data =
            " AND  name ILIKE '%' || ".data ++
              '$' :: ((Nat.repr k).data ++
                (" || '%'".data ++ (companyRestSql rest true (k + 1)).data)) := by
          simp [companyRestSql, String.data_append]
        rw [e, phRuns_clause _ (by decide) _ (repr_data_digits k) _ hB, htail,
          ih true (k + 1) hrest, List.length_cons, List.range'_succ]
        simp
    · replace h2 : key = "minEmployees" := h2
      subst h2
      cases s
      · have e : (companyRestSql (("minEmployees", v) :: rest) false k).data =
            " WHERE  num_employees >= ".data ++
              '$' :: ((Nat.repr k).data ++ (companyRestSql rest true (k + 1)).data) := by
          simp [companyRestSql, String.data_append]
        rw [e, phRuns_clause _ (by decide) _ (repr_data_digits k) _ (hJ (k + 1)),
          ih true (k + 1) hrest, List.length_cons, List.range'_succ]
        simp
      · have e : (companyRestSql (("minEmployees", v) :: rest) true k).data =
            " AND  num_employees >= ".data ++
              '$' :: ((Nat.repr k).data ++ (companyRestSql rest true (k + 1)).data) := by
          simp [companyRestSql, String.data_append]
        rw [e, phRuns_clause _ (by decide) _ (repr_data_digits k) _ (hJ (k + 1)),
          ih true (k + 1) hrest, List.length_cons, List.range'_succ]
        simp
    · replace h3 : key = "maxEmployees" := h3
      subst h3
      cases s
      · have e : (companyRestSql (("maxEmployees", v) :: rest) false k).data =
            " WHERE  num_employees <= ".data ++
              '$' :: ((Nat.repr k).data ++ (companyRestSql rest true (k + 1)).data) := by
          simp [companyRestSql, String.data_append]
        rw [e, phRuns_clause _ (by decide) _ (repr_data_digits k) _ (hJ (k + 1)),
          ih true (k + 1) hrest, List.length_cons, List.range'_succ]
        simp
      · have e : (companyRestSql (("maxEmployees", v) :: rest) true k).data =
            " AND  num_employees <= ".data ++
              '$' :: ((Nat.repr k).data ++ (companyRestSql rest true (k + 1)).data) := by
          simp [companyRestSql, String.data_append]
        rw [e, phRuns_clause _ (by decide) _ (repr_data_digits k) _ (hJ (k + 1)),
          ih true (k + 1) hrest, List.length_cons, List.range'_succ]
        simp

/-! ### The statement text is a function of the keys alone -/

theorem jobRestSql_keys (l1 : List (String × V)) :
    ∀ (l2 : List (String × V)) (s : Bool) (k : Nat),
      l1.map Prod.fst = l2.map Prod.fst → jobRestSql l1 s k = jobRestSql l2 s k := by
  induction l1 with
  | nil =>
    intro l2 s k h
    cases l2 with
    | nil => rfl
    | cons q rest2 => simp at h
  | cons p rest ih =>
    intro l2 s k h
    cases l2 with
    | nil => simp at h
    | cons q rest2 =>
      obtain ⟨key, v⟩ := p
      obtain ⟨key2, v2⟩ := q
      simp only [List.map_cons, List.cons.injEq] at h
      obtain ⟨hk, ht⟩ := h
      subst hk
      by_cases h1 : key = "title"
      · simp [jobRestSql, h1, ih rest2 true (k + 1) ht]
      · by_cases h2 : key = "minSalary"
        · simp [jobRestSql, h1, h2, ih rest2 true (k + 1) ht]
        · by_cases h3 : key = "hasEquity"
          · simp [jobRestSql, h1, h2, h3, ih rest2 true k ht]
          · simp [jobRestSql, h1, h2, h3, ih rest2 true (k + 1) ht]

theorem companyRestSql_keys (l1 : List (String × V)) :
    ∀ (l2 : List (String × V)) (s : Bool) (k : Nat),
      l1.map Prod.fst = l2.map Prod.fst → companyRestSql l1 s k = companyRestSql l2 s k := by
  induction l1 with
  | nil =>
    intro l2 s k h
    cases l2 with
    | nil => rfl
    | cons q rest2 => simp at h
  | cons p rest ih =>
    intro l2 s k h
    cases l2 with
    | nil => simp at h
    | cons q rest2 =>
      obtain ⟨key, v⟩ := p
      obtain ⟨key2, v2⟩ := q
      simp only [List.map_cons, List.cons.injEq] at h
      obtain ⟨hk, ht⟩ := h
      subst hk
      by_cases h1 : key = "name"
      · simp [companyRestSql, h1, ih rest2 true (k + 1) ht]
      · by_cases h2 : key = "minEmployees"
        · simp [companyRestSql, h1, h2, ih rest2 true (k + 1) ht]
        · by_cases h3 : key = "maxEmployees"
          · simp [companyRestSql, h1, h2, h3, ih rest2 true (k + 1) ht]
          · simp [companyRestSql, h1, h2, h3, ih rest2 true (k + 1) ht]

theorem jobRestVals_keys_vals (l1 : List (String × V)) :
    ∀ (l2 : List (String × V)),
      l1.map Prod.fst = l2.map Prod.fst →
      (l1.filter (fun p => p.1 != "hasEquity")).map Prod.snd =
        (l2.filter (fun p => p.1 != "hasEquity")).map Prod.snd →
      jobRestVals l1 = jobRestVals l2 := by
  intro l2 h hv
  rw [jobRestVals_eq, jobRestVals_eq, hv]

/-! ### Top-level characterizations of the two filter statements -/

theorem Job.jobBuild_placeholders (q : List (String × V))
    (hv : ∀ p ∈ q, p.1 = "title" ∨ p.1 = "minSalary" ∨ p.1 = "hasEquity") :
    placeholdersOf (Job.buildFindAllSQLWithQueryString q).1 =
      (List.range' 1 ((Job.buildFindAllSQLWithQueryString q).2).length).map Nat.repr := by
  rw [Job.jobBuild_eq]
  show placeholdersOf (Job.baseSql ++ jobRestSql q false 1) = _
  rw [placeholdersOf, String.data_append,
    phRuns_append _ _ (nondigit_of_head_space (jobRestSql_head q false 1)) none,
    show phRuns Job.baseSql.data none = [] from by decide,
    jobRestSql_phRuns q false 1 hv]
  simp only [List.nil_append, List.map_map]
  rw [jobRestVals_length]
  rfl

theorem Company.companyBuild_placeholders (q : List (String × V))
    (hv : ∀ p ∈ q, p.1 = "name" ∨ p.1 = "minEmployees" ∨ p.1 = "maxEmployees") :
    placeholdersOf (Company.buildFindAllSQLWithQueryString q).1 =
      (List.range' 1 ((Company.buildFindAllSQLWithQueryString q).2).length).map Nat.repr := by
  rw [Company.companyBuild_eq]
  show placeholdersOf (Company.baseSql ++ companyRestSql q false 1) = _
  rw [placeholdersOf, String.data_append,
    phRuns_append _ _ (nondigit_of_head_space (companyRestSql_head q false 1)) none,
    show phRuns Company.baseSql.data none = [] from by decide,
    companyRestSql_phRuns q false 1 hv]
  simp only [List.nil_append, List.map_map, List.length_map]
  rfl

/-! ## Claim theorems -/

/-- Claim C3: for every translation table, calling the partial-update builder
with an empty data mapping fails with the client error `BadRequestError "No
data"` (the spec's NoDataError); the emptiness check precedes any column
lookup — the outcome is the same error whatever the table contains — and no
output is produced. -/
theorem claim3_empty_update_fails (t : List (String × String)) :
    sqlForPartialUpdate ([] : List (String × V)) t =
      .error (.badRequest "No data") := rfl

/-- Claim C9: for an empty filter mapping, each resource's filter builder
returns exactly the fixed base projection and relation followed directly by
the fixed ORDER BY clause, with no `WHERE` keyword anywhere in the statement,
and an empty bind-value list. -/
theorem claim9_empty_filter_no_where :
    Job.buildFindAllSQLWithQueryString ([] : List (String × JSVal)) =
      (Job.baseSql ++ " ORDER BY title", []) ∧
    hasSubstr (Job.buildFindAllSQLWithQueryString ([] : List (String × JSVal))).1.data
      "WHERE".data = false ∧
    Company.buildFindAllSQLWithQueryString ([] : List (String × JSVal)) =
      (Company.baseSql ++ " ORDER BY name", []) ∧
    hasSubstr (Company.buildFindAllSQLWithQueryString ([] : List (String × JSVal))).1.data
      "WHERE".data = false :=
  ⟨rfl, by decide, rfl, by decide⟩

/-- Claim C5 (code bug): at the failing input `{title: "test"}` the jobs
builder renders its substring predicate against the column `name` — which the
jobs relation does not have — rather than `title`: the statement is exactly
the base followed by ` WHERE  name ILIKE '%' || $1 || '%' ORDER BY title`,
contains ` name ILIKE` and contains no `title ILIKE`. -/
theorem claim5_title_filter_uses_name_column :
    Job.buildFindAllSQLWithQueryString [("title", JSVal.str "test")] =
      (Job.baseSql ++ " WHERE  name ILIKE '%' || $1 || '%' ORDER BY title",
        [JSVal.str "test"]) ∧
    hasSubstr (Job.buildFindAllSQLWithQueryString [("title", JSVal.str "test")]).1.data
      " name ILIKE ".data = true ∧
    hasSubstr (Job.buildFindAllSQLWithQueryString [("title", JSVal.str "test")]).1.data
      "title ILIKE".data = false := by
  refine ⟨by decide, by decide, by decide⟩

/-- Claim C10: whenever `hasEquity` is present in a jobs filter mapping the
builder emits the literal clause on the key alone, ignoring the associated
value — replacing the value by any other yields the identical statement and
bind list, and in particular `{hasEquity: false}` produces exactly the same
output as `{hasEquity: true}`. -/
theorem claim10_hasEquity_value_ignored (q1 q2 : List (String × V)) (v1 v2 : V) :
    Job.buildFindAllSQLWithQueryString (q1 ++ ("hasEquity", v1) :: q2) =
      Job.buildFindAllSQLWithQueryString (q1 ++ ("hasEquity", v2) :: q2) ∧
    Job.buildFindAllSQLWithQueryString [("hasEquity", JSVal.bool false)] =
      Job.buildFindAllSQLWithQueryString [("hasEquity", JSVal.bool true)] := by
  constructor
  · rw [Job.jobBuild_eq, Job.jobBuild_eq]
    have hsql : jobRestSql (q1 ++ ("hasEquity", v1) :: q2) false 1 =
        jobRestSql (q1 ++ ("hasEquity", v2) :: q2) false 1 :=
      jobRestSql_keys _ _ false 1 (by simp)
    have hvals : jobRestVals (q1 ++ ("hasEquity", v1) :: q2) =
        jobRestVals (q1 ++ ("hasEquity", v2) :: q2) := by
      rw [jobRestVals_eq, jobRestVals_eq]
      simp [List.filter_append, List.filter_cons]
    rw [hsql, hvals]
  · rfl

/-- Claim C6 counterexample: the translation table `{a: ""}` has an entry for
the key `a`, yet the generated assignment column is the key `a` itself, not
the entry `""` — JavaScript's `jsToSql[colName] || colName` treats the empty
string as falsy and falls back on the key, so the claim "if t has an entry
for that key then the column equals that entry" fails as stated. -/
theorem claim6_counterexample :
    List.lookup "a" [("a", "")] = some "" ∧
    sqlForPartialUpdate [("a", JSVal.str "x")] [("a", "")] =
      .ok ⟨"\"a\"=$1", [JSVal.str "x"]⟩ ∧
    ("\"a\"=$1" : String) ≠ "\"\"=$1" :=
  ⟨rfl, rfl, by decide⟩

/-- Claim C6 (amended): for every non-empty data mapping and translation
table `t`, each key's assignment clause carries the column from `t`'s entry
when that entry exists and is non-empty; when the entry is absent — or is the
empty string, which JavaScript's `||` treats as falsy — the column is the key
itself verbatim. -/
theorem claim6_translation_precedence (data : List (String × V))
    (t : List (String × String)) (i : Nat) (hi : i < data.length) :
    ∃ r, sqlForPartialUpdate data t = .ok r ∧
      r.setCols = String.intercalate ", " (sqlForPartialUpdateCols (data.map Prod.fst) t) ∧
      (sqlForPartialUpdateCols (data.map Prod.fst) t).get
          ⟨i, by simpa [sqlForPartialUpdateCols] using hi⟩ =
        "\"" ++
          (match t.lookup (data.get ⟨i, hi⟩).1 with
           | some s => if s = "" then (data.get ⟨i, hi⟩).1 else s
           | none => (data.get ⟨i, hi⟩).1) ++
          "\"=$" ++ Nat.repr (i + 1) := by
  have hne : ¬(data.map Prod.fst).length = 0 := by
    simp only [List.length_map]
    omega
  refine ⟨⟨String.intercalate ", " (sqlForPartialUpdateCols (data.map Prod.fst) t),
    data.map Prod.snd⟩, ?_, rfl, ?_⟩
  · rw [sqlForPartialUpdate]
    simp only [hne, if_false, if_neg hne]
  · have hcols : (sqlForPartialUpdateCols (data.map Prod.fst) t).get
        ⟨i, by simpa [sqlForPartialUpdateCols] using hi⟩ =
        "\"" ++ lookupOrKey t ((data.map Prod.fst).get ⟨i, by simpa using hi⟩) ++
          "\"=$" ++ Nat.repr (i + 1) := by
      simp [sqlForPartialUpdateCols, List.get_eq_getElem, List.getElem_map, List.getElem_enum]
    rw [hcols]
    have hkey : (data.map Prod.fst).get ⟨i, by simpa using hi⟩ = (data.get ⟨i, hi⟩).1 := by
      simp [List.get_eq_getElem, List.getElem_map]
    rw [hkey, lookupOrKey]

/-- Witness for claim C6: the concrete single-key update of the source's own
test suite, where the table's entry `first_name` is non-empty and becomes the
column. -/
theorem claim6_translation_precedence_witness :
    ∃ r, sqlForPartialUpdate [("firstName", JSVal.str "Aliya")] [("firstName", "first_name")] =
        .ok r ∧
      r.setCols = String.intercalate ", "
        (sqlForPartialUpdateCols ["firstName"] [("firstName", "first_name")]) ∧
      (sqlForPartialUpdateCols ["firstName"] [("firstName", "first_name")]).get
          ⟨0, by decide⟩ = "\"first_name\"=$1" := by
  obtain ⟨r, h1, h2, h3⟩ :=
    claim6_translation_precedence [("firstName", JSVal.str "Aliya")]
      [("firstName", "first_name")] 0 (by decide)
  exact ⟨r, h1, h2, h3⟩

/-- Claim C7: for every non-empty data mapping with n keys and every
translation table, the partial-update builder succeeds with a values list of
length n equal to the mapping's values in encounter order; the i-th clause
(0-based) binds the i-th key's column to placeholder `$(i+1)`, so clause i
carries the placeholder whose bind value is values[i], and the next free
placeholder index is `len(values)+1`. -/
theorem claim7_update_values_alignment (data : List (String × V))
    (t : List (String × String)) (h : data ≠ []) :
    ∃ r, sqlForPartialUpdate data t = .ok r ∧
      r.values = data.map Prod.snd ∧
      r.values.length = data.length ∧
      r.setCols = String.intercalate ", " (sqlForPartialUpdateCols (data.map Prod.fst) t) ∧
      (sqlForPartialUpdateCols (data.map Prod.fst) t).length = data.length ∧
      ∀ (i : Nat) (hi : i < data.length),
        r.values.get? i = some (data.get ⟨i, hi⟩).2 ∧
        (sqlForPartialUpdateCols (data.map Prod.fst) t).get? i =
          some ("\"" ++ lookupOrKey t (data.get ⟨i, hi⟩).1 ++ "\"=$" ++ Nat.repr (i + 1)) := by
  have hne : ¬(data.map Prod.fst).length = 0 := by
    simp only [List.length_map]
    intro h0
    exact h (List.length_eq_zero.mp h0)
  refine ⟨⟨String.intercalate ", " (sqlForPartialUpdateCols (data.map Prod.fst) t),
    data.map Prod.snd⟩, ?_, rfl, by simp, rfl, by simp [sqlForPartialUpdateCols], ?_⟩
  · rw [sqlForPartialUpdate]
    simp only [hne, if_false, if_neg hne]
  · intro i hi
    constructor
    · rw [show (⟨String.intercalate ", " (sqlForPartialUpdateCols (data.map Prod.fst) t),
          data.map Prod.snd⟩ : SqlUpdateResult V).values = data.map Prod.snd from rfl]
      rw [List.get?_map, List.get?_eq_get hi]
      rfl
    · have him : i < (data.map Prod.fst).length := by simpa using hi
      rw [sqlForPartialUpdateCols, List.get?_map,
        List.get?_eq_get (show i < (data.map Prod.fst).enum.length by simpa using him)]
      simp [List.get_eq_getElem, List.getElem_enum, List.getElem_map]

/-- Witness for claim C7: the source test suite's concrete scenario
`{firstName: "Aliya", age: 32}` with table `{firstName: "first_name",
age: "age"}` yields assignments `"first_name"=$1, "age"=$2` and values
`["Aliya", 32]`. -/
theorem claim7_update_values_alignment_witness :
    ∃ r, sqlForPartialUpdate
        [("firstName", JSVal.str "Aliya"), ("age", JSVal.num 32)]
        [("firstName", "first_name"), ("age", "age")] = .ok r ∧
      r.setCols = "\"first_name\"=$1, \"age\"=$2" ∧
      r.values = [JSVal.str "Aliya", JSVal.num 32] := by
  obtain ⟨r, h1, h2, h3, h4, h5, h6⟩ :=
    claim7_update_values_alignment
      [("firstName", JSVal.str "Aliya"), ("age", JSVal.num 32)]
      [("firstName", "first_name"), ("age", "age")] (by decide)
  refine ⟨r, h1, ?_, ?_⟩
  · rw [h4]
    decide
  · rw [h2]
    decide

/-- Claim C1: for both builders the statement text is a function of the input
mapping's keys alone — same keys in the same order give character-identical
statements whatever the values — and every client-supplied value goes only
into the returned bind-value list (the update builder returns exactly the
mapping's values; the jobs builder returns the values of all non-`hasEquity`
keys; the companies builder returns all values). -/
theorem claim1_statement_depends_only_on_keys
    (d1 d2 q1 q2 c1 c2 : List (String × V)) (t : List (String × String))
    (hd : d1.map Prod.fst = d2.map Prod.fst)
    (hq : q1.map Prod.fst = q2.map Prod.fst)
    (hc : c1.map Prod.fst = c2.map Prod.fst) :
    (∀ r1, sqlForPartialUpdate d1 t = .ok r1 →
      ∃ r2, sqlForPartialUpdate d2 t = .ok r2 ∧ r2.setCols = r1.setCols ∧
        r1.values = d1.map Prod.snd ∧ r2.values = d2.map Prod.snd) ∧
    (Job.buildFindAllSQLWithQueryString q1).1 = (Job.buildFindAllSQLWithQueryString q2).1 ∧
    (Job.buildFindAllSQLWithQueryString q1).2 =
      (q1.filter (fun p => p.1 != "hasEquity")).map Prod.snd ∧
    (Company.buildFindAllSQLWithQueryString c1).1 =
      (Company.buildFindAllSQLWithQueryString c2).1 ∧
    (Company.buildFindAllSQLWithQueryString c1).2 = c1.map Prod.snd := by
  refine ⟨?_, ?_, ?_, ?_, ?_⟩
  · intro r1 h1
    have hlen1 : ¬(d1.map Prod.fst).length = 0 := by
      intro h0
      rw [sqlForPartialUpdate] at h1
      simp only [h0, if_pos] at h1
      exact absurd h1 (by simp)
    have hlen2 : ¬(d2.map Prod.fst).length = 0 := by
      rw [← hd]
      exact hlen1
    rw [sqlForPartialUpdate] at h1
    simp only [if_neg hlen1] at h1
    injection h1 with h1
    subst h1
    refine ⟨⟨String.intercalate ", " (sqlForPartialUpdateCols (d2.map Prod.fst) t),
      d2.map Prod.snd⟩, ?_, ?_, rfl, rfl⟩
    · rw [sqlForPartialUpdate]
      simp only [if_neg hlen2]
    · show String.intercalate ", " (sqlForPartialUpdateCols (d2.map Prod.fst) t) =
        String.intercalate ", " (sqlForPartialUpdateCols (d1.map Prod.fst) t)
      rw [hd]
  · rw [Job.jobBuild_eq, Job.jobBuild_eq]
    show Job.baseSql ++ jobRestSql q1 false 1 = Job.baseSql ++ jobRestSql q2 false 1
    rw [jobRestSql_keys q1 q2 false 1 hq]
  · rw [Job.jobBuild_eq]
    exact jobRestVals_eq q1
  · rw [Company.companyBuild_eq, Company.companyBuild_eq]
    show Company.baseSql ++ companyRestSql c1 false 1 =
      Company.baseSql ++ companyRestSql c2 false 1
    rw [companyRestSql_keys c1 c2 false 1 hc]
  · rw [Company.companyBuild_eq]

/-- Witness for claim C1: two jobs mappings, two companies mappings and two
update mappings that share keys but differ in every value produce identical
statement text, and the values land only in the bind lists. -/
theorem claim1_statement_depends_only_on_keys_witness :
    (Job.buildFindAllSQLWithQueryString
        [("title", JSVal.str "a"), ("hasEquity", JSVal.bool true)]).1 =
      (Job.buildFindAllSQLWithQueryString
        [("title", JSVal.num 9), ("hasEquity", JSVal.str "x")]).1 ∧
    (Job.buildFindAllSQLWithQueryString
        [("title", JSVal.str "a"), ("hasEquity", JSVal.bool true)]).2 = [JSVal.str "a"] ∧
    (Company.buildFindAllSQLWithQueryString [("name", JSVal.str "n")]).1 =
      (Company.buildFindAllSQLWithQueryString [("name", JSVal.num 1)]).1 ∧
    (∃ r2, sqlForPartialUpdate [("firstName", JSVal.num 7)] [("firstName", "first_name")] =
      .ok r2 ∧ r2.setCols = "\"first_name\"=$1") := by
  have h := claim1_statement_depends_only_on_keys
    [("firstName", JSVal.str "Aliya")] [("firstName", JSVal.num 7)]
    [("title", JSVal.str "a"), ("hasEquity", JSVal.bool true)]
    [("title", JSVal.num 9), ("hasEquity", JSVal.str "x")]
    [("name", JSVal.str "n")] [("name", JSVal.num 1)]
    [("firstName", "first_name")] rfl rfl rfl
  refine ⟨h.2.1, ?_, h.2.2.2.1, ?_⟩
  · rw [h.2.2.1]
    decide
  · obtain ⟨r2, hok, hset, _, _⟩ :=
      h.1 ⟨"\"first_name\"=$1", [JSVal.str "Aliya"]⟩ rfl
    exact ⟨r2, hok, by rw [hset]⟩

/-- Claim C2: for every filter mapping over the resource's recognized
vocabulary, the statement's placeholders — each `$` with its maximal digit
run — are exactly the numerals `1..n` in order, where `n` is the length of
the returned bind-value list: as many placeholders as values, strictly
increasing, no gaps, no reuse. -/
theorem claim2_placeholder_discipline (qj qc : List (String × V))
    (hj : ∀ p ∈ qj, p.1 = "title" ∨ p.1 = "minSalary" ∨ p.1 = "hasEquity")
    (hc : ∀ p ∈ qc, p.1 = "name" ∨ p.1 = "minEmployees" ∨ p.1 = "maxEmployees") :
    placeholdersOf (Job.buildFindAllSQLWithQueryString qj).1 =
      (List.range' 1 ((Job.buildFindAllSQLWithQueryString qj).2).length).map Nat.repr ∧
    (placeholdersOf (Job.buildFindAllSQLWithQueryString qj).1).length =
      ((Job.buildFindAllSQLWithQueryString qj).2).length ∧
    placeholdersOf (Company.buildFindAllSQLWithQueryString qc).1 =
      (List.range' 1 ((Company.buildFindAllSQLWithQueryString qc).2).length).map Nat.repr ∧
    (placeholdersOf (Company.buildFindAllSQLWithQueryString qc).1).length =
      ((Company.buildFindAllSQLWithQueryString qc).2).length := by
  refine ⟨Job.jobBuild_placeholders qj hj, ?_, Company.companyBuild_placeholders qc hc, ?_⟩
  · rw [Job.jobBuild_placeholders qj hj]
    simp [List.length_range']
  · rw [Company.companyBuild_placeholders qc hc]
    simp [List.length_range']

/-- Witness for claim C2: a three-key jobs filter (one of them the literal
`hasEquity`) carries placeholders `$1, $2` for its two bind values, and a
two-key companies filter carries `$1, $2`. -/
theorem claim2_placeholder_discipline_witness :
    placeholdersOf (Job.buildFindAllSQLWithQueryString
      [("title", JSVal.str "t"), ("hasEquity", JSVal.bool true),
        ("minSalary", JSVal.num 3)]).1 = ["1", "2"] ∧
    placeholdersOf (Company.buildFindAllSQLWithQueryString
      [("name", JSVal.str "n"), ("maxEmployees", JSVal.num 10)]).1 = ["1", "2"] := by
  have h := claim2_placeholder_discipline
    [("title", JSVal.str "t"), ("hasEquity", JSVal.bool true), ("minSalary", JSVal.num 3)]
    [("name", JSVal.str "n"), ("maxEmployees", JSVal.num 10)]
    (by decide) (by decide)
  refine ⟨?_, ?_⟩
  · rw [h.1]
    decide
  · rw [h.2.2.1]
    decide

theorem validateFilterKeys_rejects (vocab : List String) (q : List (String × V))
    (k : String) (h1 : k ∈ q.map Prod.fst) (h2 : k ∉ vocab) :
    ∃ k0, validateFilterKeys vocab q = .error (.unrecognizedFilterKey k0) ∧
      k0 ∈ q.map Prod.fst ∧ k0 ∉ vocab := by
  obtain ⟨p, hp, hpk⟩ := List.mem_map.mp h1
  have hfind : (q.find? (fun p => !(vocab.contains p.1))).isSome :=
    List.find?_isSome.mpr ⟨p, hp, by simp [hpk, h2]⟩
  obtain ⟨p0, hp0⟩ := Option.isSome_iff_exists.mp hfind
  refine ⟨p0.1, ?_, List.mem_map_of_mem _ (List.mem_of_find?_eq_some hp0), ?_⟩
  · rw [validateFilterKeys, hp0]
  · have hpred := List.find?_some hp0
    simpa using hpred

/-- Claim C4: for every filter mapping containing a key outside the
resource's recognized vocabulary, the filter path fails with an
`UnrecognizedFilterKeyError` naming that offending key, regardless of which
other valid keys are present; the key is never silently ignored. -/
theorem claim4_unrecognized_key_rejected (qj qc : List (String × V)) (kj kc : String)
    (hj1 : kj ∈ qj.map Prod.fst) (hj2 : kj ∉ jobFilterVocab)
    (hj3 : ∀ p ∈ qj, p.1 = kj ∨ p.1 ∈ jobFilterVocab)
    (hc1 : kc ∈ qc.map Prod.fst) (hc2 : kc ∉ companyFilterVocab)
    (hc3 : ∀ p ∈ qc, p.1 = kc ∨ p.1 ∈ companyFilterVocab) :
    Job.findAllChecked qj = .error (.unrecognizedFilterKey kj) ∧
    Company.findAllChecked qc = .error (.unrecognizedFilterKey kc) := by
  constructor
  · obtain ⟨k0, hv, hm, hnv⟩ := validateFilterKeys_rejects jobFilterVocab qj kj hj1 hj2
    obtain ⟨p0, hp0, hp0k⟩ := List.mem_map.mp hm
    have hk0 : k0 = kj := by
      rcases hj3 p0 hp0 with h | h
      · rw [← hp0k]; exact h
      · exact absurd (hp0k ▸ h) hnv
    rw [Job.findAllChecked, hv, hk0]
  · obtain ⟨k0, hv, hm, hnv⟩ := validateFilterKeys_rejects companyFilterVocab qc kc hc1 hc2
    obtain ⟨p0, hp0, hp0k⟩ := List.mem_map.mp hm
    have hk0 : k0 = kc := by
      rcases hc3 p0 hp0 with h | h
      · rw [← hp0k]; exact h
      · exact absurd (hp0k ▸ h) hnv
    rw [Company.findAllChecked, hv, hk0]

/-- Witness for claim C4: the route tests' own query string
`?fakeQueryField=blah&title=test` is rejected with an error naming
`fakeQueryField` even though `title` is valid, for jobs and for companies. -/
theorem claim4_unrecognized_key_rejected_witness :
    Job.findAllChecked
        [("fakeQueryField", JSVal.str "blah"), ("title", JSVal.str "test")] =
      .error (.unrecognizedFilterKey "fakeQueryField") ∧
    Company.findAllChecked
        [("minEmployees", JSVal.num 1), ("fakeQueryField", JSVal.str "x")] =
      .error (.unrecognizedFilterKey "fakeQueryField") :=
  claim4_unrecognized_key_rejected
    [("fakeQueryField", JSVal.str "blah"), ("title", JSVal.str "test")]
    [("minEmployees", JSVal.num 1), ("fakeQueryField", JSVal.str "x")]
    "fakeQueryField" "fakeQueryField"
    (by decide) (by decide) (by decide) (by decide) (by decide) (by decide)

theorem jobRestSql_equity_decomp (q1 : List (String × V)) :
    ∀ (q2 : List (String × V)) (v : V) (s : Bool) (k : Nat),
      ∃ a b, jobRestSql (q1 ++ ("hasEquity", v) :: q2) s k = a ++ " equity > 0" ++ b := by
  induction q1 with
  | nil =>
    intro q2 v s k
    cases s
    · exact ⟨" WHERE ", jobRestSql q2 true k, by simp [jobRestSql]⟩
    · exact ⟨" AND ", jobRestSql q2 true k, by simp [jobRestSql]⟩
  | cons p rest ih =>
    intro q2 v s k
    obtain ⟨key, vv⟩ := p
    by_cases h1 : key = "title"
    · subst h1
      obtain ⟨a, b, hab⟩ := ih q2 v true (k + 1)
      refine ⟨(if s then " AND  name ILIKE '%' || $" else " WHERE  name ILIKE '%' || $") ++
        Nat.repr k ++ " || '%'" ++ a, b, ?_⟩
      cases s <;> simp [jobRestSql, hab, String.append_assoc]
    · by_cases h2 : key = "minSalary"
      · subst h2
        obtain ⟨a, b, hab⟩ := ih q2 v true (k + 1)
        refine ⟨(if s then " AND  salary >= $" else " WHERE  salary >= $") ++
          Nat.repr k ++ a, b, ?_⟩
        cases s <;> simp [jobRestSql, hab, String.append_assoc]
      · by_cases h3 : key = "hasEquity"
        · subst h3
          obtain ⟨a, b, hab⟩ := ih q2 v true k
          refine ⟨(if s then " AND  equity > 0" else " WHERE  equity > 0") ++ a, b, ?_⟩
          cases s <;> simp [jobRestSql, hab, String.append_assoc]
        · obtain ⟨a, b, hab⟩ := ih q2 v true (k + 1)
          refine ⟨(if s then " AND " else " WHERE ") ++ a, b, ?_⟩
          cases s <;> simp [jobRestSql, h1, h2, h3, hab, String.append_assoc]

/-- Claim C8: when `hasEquity` appears among parameterized keys (`title`,
`minSalary`) in a jobs filter, its clause is the literal text ` equity > 0`
contributing no bind value and no placeholder: the bind list and the sequence
of placeholder numerals are the same as for the mapping without the
`hasEquity` entry, so the parameterized predicates keep consecutive indices
across the literal clause. -/
theorem claim8_literal_equity_clause (q1 q2 : List (String × V)) (v : V)
    (hv : ∀ p ∈ q1 ++ q2, p.1 = "title" ∨ p.1 = "minSalary") :
    (Job.buildFindAllSQLWithQueryString (q1 ++ ("hasEquity", v) :: q2)).2 =
      (Job.buildFindAllSQLWithQueryString (q1 ++ q2)).2 ∧
    placeholdersOf (Job.buildFindAllSQLWithQueryString (q1 ++ ("hasEquity", v) :: q2)).1 =
      placeholdersOf (Job.buildFindAllSQLWithQueryString (q1 ++ q2)).1 ∧
    ∃ s1 s2, (Job.buildFindAllSQLWithQueryString (q1 ++ ("hasEquity", v) :: q2)).1 =
      s1 ++ " equity > 0" ++ s2 := by
  have hvals : (Job.buildFindAllSQLWithQueryString (q1 ++ ("hasEquity", v) :: q2)).2 =
      (Job.buildFindAllSQLWithQueryString (q1 ++ q2)).2 := by
    rw [Job.jobBuild_eq, Job.jobBuild_eq]
    show jobRestVals _ = jobRestVals _
    rw [jobRestVals_eq, jobRestVals_eq]
    simp [List.filter_append, List.filter_cons]
  refine ⟨hvals, ?_, ?_⟩
  · have h1 : ∀ p ∈ q1 ++ ("hasEquity", v) :: q2,
        p.1 = "title" ∨ p.1 = "minSalary" ∨ p.1 = "hasEquity" := by
      intro p hp
      rcases List.mem_append.mp hp with h | h
      · rcases hv p (List.mem_append_left _ h) with h' | h'
        · exact Or.inl h'
        · exact Or.inr (Or.inl h')
      · rcases List.mem_cons.mp h with h | h
        · subst h
          exact Or.inr (Or.inr rfl)
        · rcases hv p (List.mem_append_right _ h) with h' | h'
          · exact Or.inl h'
          · exact Or.inr (Or.inl h')
    have h2 : ∀ p ∈ q1 ++ q2, p.1 = "title" ∨ p.1 = "minSalary" ∨ p.1 = "hasEquity" := by
      intro p hp
      rcases hv p hp with h' | h'
      · exact Or.inl h'
      · exact Or.inr (Or.inl h')
    rw [Job.jobBuild_placeholders _ h1, Job.jobBuild_placeholders _ h2, hvals]
  · obtain ⟨a, b, hab⟩ := jobRestSql_equity_decomp q1 q2 v false 1
    refine ⟨Job.baseSql ++ a, b, ?_⟩
    rw [Job.jobBuild_eq]
    show Job.baseSql ++ jobRestSql (q1 ++ ("hasEquity", v) :: q2) false 1 = _
    rw [hab]
    simp [String.append_assoc]

/-- Witness for claim C8: the source test scenario
`{title: "test", minSalary: 75000, hasEquity: true}` binds exactly the two
values of its parameterized keys with placeholders `$1, $2`, as the same
mapping without `hasEquity` does, and its statement carries the literal
equity clause. -/
theorem claim8_literal_equity_clause_witness :
    (Job.buildFindAllSQLWithQueryString
        [("title", JSVal.str "test"), ("minSalary", JSVal.num 75000),
          ("hasEquity", JSVal.bool true)]).2 =
      (Job.buildFindAllSQLWithQueryString
        [("title", JSVal.str "test"), ("minSalary", JSVal.num 75000)]).2 ∧
    placeholdersOf (Job.buildFindAllSQLWithQueryString
        [("title", JSVal.str "test"), ("minSalary", JSVal.num 75000),
          ("hasEquity", JSVal.bool true)]).1 =
      placeholdersOf (Job.buildFindAllSQLWithQueryString
        [("title", JSVal.str "test"), ("minSalary", JSVal.num 75000)]).1 ∧
    ∃ s1 s2, (Job.buildFindAllSQLWithQueryString
        [("title", JSVal.str "test"), ("minSalary", JSVal.num 75000),
          ("hasEquity", JSVal.bool true)]).1 = s1 ++ " equity > 0" ++ s2 :=
  claim8_literal_equity_clause
    [("title", JSVal.str "test"), ("minSalary", JSVal.num 75000)] []
    (JSVal.bool true) (by decide)
